import Mathlib

/-!
Shallow embedding of the offline-first synchronization and aggregation core of
the mood-survey application: the dual-mode data gateway and sync reconciler
from the client API module, the POST /api/sync handler from the backend
server, and the student-summary aggregation from the admin panel.

Modelling conventions:
* JavaScript numbers that hold identifiers and scores are modelled as Int
  (the local-fallback join uses the sentinel id -1).
* Timestamps are modelled as Nat epoch milliseconds: the code only ever
  compares timestamps through new Date(ts).getTime(), so the Nat value stands
  for that number.
* A localStorage cell holding a serialized collection is modelled as
  Option (Option (List a)): none is an absent key (getItem returns null, so
  getItem(key) or-else the empty-array literal parses to the empty list),
  some none is a present but unparseable string (JSON.parse throws), and
  some (some l) is a string that JSON.parse reads as the collection l.
* The remote endpoint reached by fetchWithTimeout(url, options, timeout) is
  modelled per operation as a function from the timeout argument to
  Option of the response body; none collapses timeout, network error and
  non-ok status into the single failure the code treats uniformly.
* JavaScript Map objects are modelled as insertion-ordered association lists
  whose set operation replaces an existing binding in place.
-/

namespace SEL

/-- A user record: id is Date.now() when created locally, or the SQLite
rowid assigned by INSERT INTO users when created remotely. -/
structure User where
  id : Int
  name : String
  avatar : String
  grade : String
  gender : String
  deriving DecidableEq

/-- A response record, local (a sel_responses entry) or remote (a row of
the responses table). -/
structure Resp where
  id : Int
  user_id : Int
  question_id : Int
  score : Int
  timestamp : Nat
  deriving DecidableEq

/-- A localStorage cell holding one serialized record collection. -/
abbrev Cell (α : Type) : Type := Option (Option (List α))

/-- The local fallback store: the sel_users and sel_responses keys. -/
structure Store where
  sel_users : Cell User
  sel_responses : Cell Resp
  deriving DecidableEq

/-- JSON.parse(getItem(key) or-else the empty-array literal): an absent key
reads as the empty collection, an unparseable one throws. -/
def readCollection {α : Type} : Cell α → Except Unit (List α)
  | none => .ok []
  | some none => .error ()
  | some (some l) => .ok l

/-- A store whose two cells parse to the given collections. -/
def mkStore (us : List User) (rs : List Resp) : Store :=
  ⟨some (some us), some (some rs)⟩

/-- First-match association-list lookup; with mapSet keeping keys unique this
is the behaviour of JavaScript Map.get (undefined becomes none). -/
def lookupA {β : Type} : List (Int × β) → Int → Option β
  | [], _ => none
  | (k, v) :: rest, key => if k = key then some v else lookupA rest key

/-- JavaScript Map.set: replace the binding in place if the key exists,
otherwise append, preserving insertion order. -/
def mapSet {β : Type} : List (Int × β) → Int → β → List (Int × β)
  | [], k, v => [(k, v)]
  | (k1, v1) :: rest, k, v =>
    if k1 = k then (k, v) :: rest else (k1, v1) :: mapSet rest k v

/-- Provenance tag on every gateway read result. -/
inductive Source
  | DB
  | LOCAL
  deriving DecidableEq

/-- A joined user-plus-response row, as served by GET /api/admin/responses
and as built by the local-fallback join in fetchAllResponses. -/
structure Row where
  user_id : Int
  user_name : String
  user_avatar : String
  user_grade : String
  user_gender : String
  question_id : Int
  score : Int
  timestamp : Nat
  deriving DecidableEq

/-- users.find(u means u.id === r.user_id): first user whose id matches. -/
def findUser : List User → Int → Option User
  | [], _ => none
  | u :: us, uid => if u.id = uid then some u else findUser us uid

/-- One row of the local-fallback join: a response joined to its user, or to
the sentinel id -1 with placeholder display fields when no user matches. -/
def joinOne (users : List User) (r : Resp) : Row :=
  match findUser users r.user_id with
  | some u => ⟨u.id, u.name, u.avatar, u.grade, u.gender, r.question_id, r.score, r.timestamp⟩
  | none => ⟨-1, "Unknown (Local)", "🙂", "", "", r.question_id, r.score, r.timestamp⟩

/-- The stable descending-timestamp sort used by the local fallback paths
(Array.prototype.sort with comparator dateB minus dateA). -/
def sortRowsDesc (l : List Row) : List Row :=
  List.insertionSort (fun a b => b.timestamp ≤ a.timestamp) l

/-- Stable descending-timestamp sort of raw response records. -/
def sortRespsDesc (l : List Resp) : List Resp :=
  List.insertionSort (fun a b => b.timestamp ≤ a.timestamp) l

/-- The local-fallback body of fetchAllResponses: parse both collections,
join each response to its user, sort newest-first. -/
def fetchAllLocal (st : Store) : Except Unit (Source × List Row) :=
  match readCollection st.sel_users with
  | .error _ => .error ()
  | .ok us =>
    match readCollection st.sel_responses with
    | .error _ => .error ()
    | .ok rs => .ok (.LOCAL, sortRowsDesc (rs.map (joinOne us)))

/-- fetchAllResponses: try GET /api/admin/responses under a 5000 ms deadline,
fall back to the local join on any failure. -/
def fetchAllResponses (remote : Nat → Option (List Row)) (st : Store) :
    Except Unit (Source × List Row) :=
  match remote 5000 with
  | some data => .ok (.DB, data)
  | none => fetchAllLocal st

/-- The local-fallback body of fetchUserResponses: parse the response
collection, keep the rows of the given user, sort newest-first. -/
def fetchUserLocal (userId : Int) (st : Store) : Except Unit (Source × List Resp) :=
  match readCollection st.sel_responses with
  | .error _ => .error ()
  | .ok rs => .ok (.LOCAL, sortRespsDesc (rs.filter (fun r => r.user_id == userId)))

/-- fetchUserResponses: try GET /api/users/:id/responses under a 3000 ms
deadline, fall back to the filtered local collection on any failure. -/
def fetchUserResponses (remote : Nat → Option (List Resp)) (userId : Int) (st : Store) :
    Except Unit (Source × List Resp) :=
  match remote 3000 with
  | some data => .ok (.DB, data)
  | none => fetchUserLocal userId st

/-- createUser: try POST /api/login under a 3000 ms deadline; on failure
append a user with id Date.now() (the clock reading now) to sel_users. -/
def createUser (remote : Nat → Option User) (now : Int)
    (nm av gr ge : String) (st : Store) : Except Unit (User × Store) :=
  match remote 3000 with
  | some u => .ok (u, st)
  | none =>
    match readCollection st.sel_users with
    | .error _ => .error ()
    | .ok users =>
      let newUser : User := ⟨now, nm, av, gr, ge⟩
      .ok (newUser, { st with sel_users := some (some (users ++ [newUser])) })

/-- One offline create-user call: the clock reading Date.now() observes and
the profile fields the caller passes. -/
structure CreateCall where
  now : Int
  name : String
  avatar : String
  grade : String
  gender : String
  deriving DecidableEq

/-- A sequence of createUser calls with the remote unreachable; a call that
throws (corrupt storage) leaves the store unchanged for the next call. -/
def runCreateUsersOffline : List CreateCall → Store → Store
  | [], st => st
  | c :: cs, st =>
    match createUser (fun _ => none) c.now c.name c.avatar c.grade c.gender st with
    | .ok (_, st1) => runCreateUsersOffline cs st1
    | .error _ => runCreateUsersOffline cs st

/-- The ids currently stored in the local user collection. -/
def storedUserIds (st : Store) : List Int :=
  match readCollection st.sel_users with
  | .ok us => us.map User.id
  | .error _ => []

/-! ### The sync reconciler: client syncLocalToServer plus POST /api/sync -/

/-- The backend database state: the users and responses tables plus their
AUTOINCREMENT counters (SQLite starts assigning rowids at 1). -/
structure Srv where
  users : List User
  responses : List Resp
  nextUserId : Int
  nextRespId : Int
  deriving DecidableEq

/-- The JSON body of a successful sync reply. -/
structure SyncResult where
  synced_users : Nat
  synced_responses : Nat
  deriving DecidableEq

instance {ε α : Type} [DecidableEq ε] [DecidableEq α] : DecidableEq (Except ε α) := fun a b =>
  match a, b with
  | .error e, .error f =>
    if h : e = f then .isTrue (by rw [h]) else .isFalse (fun c => by cases c; exact h rfl)
  | .ok x, .ok y =>
    if h : x = y then .isTrue (by rw [h]) else .isFalse (fun c => by cases c; exact h rfl)
  | .error _, .ok _ => .isFalse (fun c => by cases c)
  | .ok _, .error _ => .isFalse (fun c => by cases c)

/-- What the server sync handler yields: the database afterwards and either
the counts or the single 500 error of the first failed insert. -/
structure SrvOut where
  db : Srv
  result : Except Unit SyncResult
  deriving DecidableEq

/-- INSERT INTO users: assign the next rowid, append, return the rowid. -/
def insUser (db : Srv) (u : User) : Srv × Int :=
  (⟨db.users ++ [⟨db.nextUserId, u.name, u.avatar, u.grade, u.gender⟩],
    db.responses, db.nextUserId + 1, db.nextRespId⟩, db.nextUserId)

/-- State threaded through phase 1 of the sync handler (user inserts):
the database, the local-to-server id map, the success counter, whether any
insert has failed, and the 1-based position in the combined insert sequence. -/
structure P1 where
  db : Srv
  idMap : List (Int × Int)
  synced : Nat
  failed : Bool
  pos : Nat
  deriving DecidableEq

/-- Phase 1 of POST /api/sync: insert every uploaded user in order; a failed
insert is recorded but the remaining statements still run (they were already
queued), exactly as with Promise.all over serialized statements. -/
def phase1 (fails : Nat → Bool) : List User → P1 → P1
  | [], s => s
  | u :: us, s =>
    if fails s.pos then
      phase1 fails us { s with failed := true, pos := s.pos + 1 }
    else
      let p := insUser s.db u
      phase1 fails us
        { db := p.1, idMap := mapSet s.idMap u.id p.2,
          synced := s.synced + 1, failed := s.failed, pos := s.pos + 1 }

/-- userIdMap.get(resp.user_id) or-else resp.user_id: the mapped server id
unless the lookup misses or returns a falsy value (0). -/
def codeResolve (m : List (Int × Int)) (uid : Int) : Int :=
  match lookupA m uid with
  | some v => if v = 0 then uid else v
  | none => uid

/-- INSERT INTO responses during sync: resolve the owner through the id map,
keep question id, score and the original timestamp, assign the next rowid. -/
def insResp (m : List (Int × Int)) (db : Srv) (r : Resp) : Srv :=
  { db with
    responses := db.responses ++
      [⟨db.nextRespId, codeResolve m r.user_id, r.question_id, r.score, r.timestamp⟩],
    nextRespId := db.nextRespId + 1 }

/-- State threaded through phase 2 of the sync handler (response inserts). -/
structure P2 where
  db : Srv
  synced : Nat
  failed : Bool
  pos : Nat
  deriving DecidableEq

/-- Phase 2 of POST /api/sync: insert every uploaded response in order using
the id map built in phase 1. -/
def phase2 (fails : Nat → Bool) (m : List (Int × Int)) : List Resp → P2 → P2
  | [], s => s
  | r :: rs, s =>
    if fails s.pos then
      phase2 fails m rs { s with failed := true, pos := s.pos + 1 }
    else
      phase2 fails m rs
        { db := insResp m s.db r, synced := s.synced + 1,
          failed := s.failed, pos := s.pos + 1 }

/-- POST /api/sync: run phase 1 over the uploaded users; only if every user
insert succeeded, run phase 2 over the uploaded responses; reply with the
counts on full success and with a single 500 error otherwise.  The insert
positions 1, 2, ... number the combined user-then-response sequence, and
fails says which positions' INSERT statements fail. -/
def serverSync (fails : Nat → Bool) (db : Srv)
    (users : List User) (responses : List Resp) : SrvOut :=
  let p1 := phase1 fails users ⟨db, [], 0, false, 1⟩
  if p1.failed then ⟨p1.db, .error ()⟩
  else
    let p2 := phase2 fails p1.idMap responses ⟨p1.db, 0, false, p1.pos⟩
    if p2.failed then ⟨p2.db, .error ()⟩
    else ⟨p2.db, .ok ⟨p1.synced, p2.synced⟩⟩

/-- The errors syncLocalToServer can raise: a JSON.parse throw while reading
local storage, or the single sync-failed error on a non-ok reply. -/
inductive SyncError
  | parseError
  | syncFailed
  deriving DecidableEq

/-- Everything observable about one client sync run: the server database and
local store afterwards, how many network calls were issued, and the value
returned or error thrown. -/
structure SyncRun where
  db : Srv
  store : Store
  calls : Nat
  result : Except SyncError SyncResult
  deriving DecidableEq

/-- syncLocalToServer: read both local collections; if both are empty return
the zero result without any network call; otherwise POST the batch to
/api/sync, throw on a non-ok reply, and clear both collections (removeItem,
leaving the keys absent) only on success. -/
def syncLocalToServer (fails : Nat → Bool) (db : Srv) (st : Store) : SyncRun :=
  match readCollection st.sel_users with
  | .error _ => ⟨db, st, 0, .error .parseError⟩
  | .ok localUsers =>
    match readCollection st.sel_responses with
    | .error _ => ⟨db, st, 0, .error .parseError⟩
    | .ok localResponses =>
      if localUsers.length = 0 ∧ localResponses.length = 0 then
        ⟨db, st, 0, .ok ⟨0, 0⟩⟩
      else
        let out := serverSync fails db localUsers localResponses
        match out.result with
        | .error _ => ⟨out.db, st, 1, .error .syncFailed⟩
        | .ok r => ⟨out.db, ⟨none, none⟩, 1, .ok r⟩

/-! Specification-side descriptions of what a successful sync appends,
used to state the round-trip and id-remapping claims. -/

/-- The server user records a block of uploaded users turns into, with rowids
assigned consecutively from startId. -/
def assignIds (startId : Int) : List User → List User
  | [] => []
  | u :: us => ⟨startId, u.name, u.avatar, u.grade, u.gender⟩ :: assignIds (startId + 1) us

/-- The local-to-server id map phase 1 builds: each uploaded user's local id
bound to its consecutively assigned rowid. -/
def buildMap (m : List (Int × Int)) (startId : Int) : List User → List (Int × Int)
  | [] => m
  | u :: us => buildMap (mapSet m u.id startId) (startId + 1) us

/-- The resolution the specification describes: the server id recorded in the
sync identifier map, or the original user id unchanged when absent. -/
def resolveUserId (m : List (Int × Int)) (uid : Int) : Int :=
  match lookupA m uid with
  | some v => v
  | none => uid

/-- The server response records a block of uploaded responses turns into:
owners resolved through the id map, timestamps kept, rowids consecutive. -/
def uploadedResponses (m : List (Int × Int)) (startId : Int) : List Resp → List Resp
  | [] => []
  | r :: rs =>
    ⟨startId, codeResolve m r.user_id, r.question_id, r.score, r.timestamp⟩ ::
      uploadedResponses m (startId + 1) rs

/-- Whether any of the n insert positions pos, pos+1, ..., pos+n-1 fails. -/
def anyFail (fails : Nat → Bool) : Nat → Nat → Bool
  | _, 0 => false
  | pos, n + 1 => fails pos || anyFail fails (pos + 1) n

/-! ### The response aggregator (admin panel studentSummaries) -/

/-- One aggregated row per user: display fields from the first row seen,
latest score per question, most recent timestamp observed. -/
structure StudentSummary where
  user_id : Int
  name : String
  avatar : String
  grade : String
  gender : String
  answers : List (Int × Int)
  last_timestamp : Nat
  deriving DecidableEq

/-- The summary opened when a user id is first seen: that row's display
fields (with the placeholder avatar for a falsy, i.e. empty, avatar string),
no answers yet, that row's timestamp. -/
def freshSummary (row : Row) : StudentSummary :=
  ⟨row.user_id, row.user_name,
   if row.user_avatar = "" then "🧑‍🎓" else row.user_avatar,
   row.user_grade, row.user_gender, [], row.timestamp⟩

/-- Processing one row against its user's summary: record the score only if
the question has not been recorded yet, then raise the displayed timestamp
if this row's is strictly newer. -/
def applyRow (s : StudentSummary) (row : Row) : StudentSummary :=
  let s1 :=
    if (lookupA s.answers row.question_id).isSome then s
    else { s with answers := s.answers ++ [(row.question_id, row.score)] }
  if s1.last_timestamp < row.timestamp then { s1 with last_timestamp := row.timestamp } else s1

/-- One forEach step of studentSummaries over the insertion-ordered map of
summaries: open a fresh summary on first sight of the user id, then apply
the row to that user's summary. -/
def aggInsert : List (Int × StudentSummary) → Row → List (Int × StudentSummary)
  | [], row => [(row.user_id, applyRow (freshSummary row) row)]
  | (k, s) :: rest, row =>
    if k = row.user_id then (k, applyRow s row) :: rest
    else (k, s) :: aggInsert rest row

/-- The insertion-ordered map of summaries built from the raw rows. -/
def aggMap (rows : List Row) : List (Int × StudentSummary) :=
  rows.foldl aggInsert []

/-- studentSummaries: the summaries in order of first appearance of each
user id (Array.from(map.values())). -/
def studentSummaries (rows : List Row) : List StudentSummary :=
  (aggMap rows).map Prod.snd

/-- The answer a summary map holds for one (user, question) pair, if any. -/
def lookupAnsM (m : List (Int × StudentSummary)) (uid qid : Int) : Option Int :=
  match lookupA m uid with
  | some s => lookupA s.answers qid
  | none => none

/-- The recorded answer the aggregation of some rows holds for one
(user, question) pair, if any. -/
def lookupAnswer (rows : List Row) (uid qid : Int) : Option Int :=
  lookupAnsM (aggMap rows) uid qid

/-- The score of the first row in input order mentioning a given
(user, question) pair: the claim-side description of latest-wins under
newest-first input. -/
def firstScore : List Row → Int → Int → Option Int
  | [], _, _ => none
  | r :: rs, uid, qid =>
    if r.user_id = uid ∧ r.question_id = qid then some r.score else firstScore rs uid qid

/-! ### Totals and progress (admin panel table and CSV export) -/

/-- Modelled from the spec: the fixed question set lives in a constants file
that is not under src/; only its list of stable integer question ids reaches
the aggregation layer (total-question-count and the CSV column set), so the
question set is represented throughout by a list of question ids, and claim
instances use this concrete three-question set. -/
def demoQuestionIds : List Int := [1, 2, 3]

/-- The ascending sort of the question ids used for the CSV columns
(QUESTIONS ids sorted with comparator a minus b). -/
def sortIntAsc (l : List Int) : List Int :=
  List.insertionSort (fun a b => a ≤ b) l

/-- The CSV export's total: walk the sorted question ids and add the score
of each question the student has recorded. -/
def csvTotalScore (qids : List Int) (s : StudentSummary) : Int :=
  (sortIntAsc qids).foldl
    (fun acc q =>
      match lookupA s.answers q with
      | some v => acc + v
      | none => acc) 0

/-- The admin table's total: reduce the recorded scores with addition. -/
def adminTotalScore (s : StudentSummary) : Int :=
  (s.answers.map Prod.snd).foldl (fun a b => a + b) 0

/-- The sum of all recorded per-question scores, as the claim words it. -/
def sumValues (ans : List (Int × Int)) : Int :=
  (ans.map Prod.snd).sum

/-- The progress cell: recorded-answer count over question-set size. -/
def progressOf (qids : List Int) (s : StudentSummary) : String :=
  toString s.answers.length ++ "/" ++ toString qids.length

/-- Left-biased choice on optional values, used to phrase first-match facts. -/
def oFirst (a b : Option Int) : Option Int :=
  match a with
  | some v => some v
  | none => b

/-! ### Lemmas about association lists and the aggregator -/

lemma oFirst_some (v : Int) (b : Option Int) : oFirst (some v) b = some v := rfl

lemma oFirst_none (b : Option Int) : oFirst none b = b := rfl

lemma oFirst_none_right (a : Option Int) : oFirst a none = a := by
  cases a <;> rfl

lemma oFirst_assoc (a b c : Option Int) :
    oFirst (oFirst a b) c = oFirst a (oFirst b c) := by
  cases a <;> rfl

lemma lookupA_append_single (xs : List (Int × Int)) (k : Int) (v : Int) (key : Int) :
    lookupA (xs ++ [(k, v)]) key =
      oFirst (lookupA xs key) (if k = key then some v else none) := by
  induction xs with
  | nil => rfl
  | cons p rest ih =>
    obtain ⟨k1, v1⟩ := p
    by_cases h : k1 = key
    · simp [lookupA, h, oFirst_some]
    · simp [lookupA, h, ih]

lemma applyRow_answers_def (s : StudentSummary) (row : Row) :
    (applyRow s row).answers =
      if (lookupA s.answers row.question_id).isSome then s.answers
      else s.answers ++ [(row.question_id, row.score)] := by
  unfold applyRow
  by_cases h : (lookupA s.answers row.question_id).isSome <;>
    simp only [h, if_true, if_false, Bool.false_eq_true] <;> split <;> rfl

lemma lookupA_applyRow (s : StudentSummary) (row : Row) (qid : Int) :
    lookupA (applyRow s row).answers qid =
      oFirst (lookupA s.answers qid)
        (if row.question_id = qid then some row.score else none) := by
  rw [applyRow_answers_def]
  by_cases h : (lookupA s.answers row.question_id).isSome
  · simp only [h, if_true]
    cases hq : lookupA s.answers qid with
    | some v => rw [oFirst_some]
    | none =>
      rw [oFirst_none]
      by_cases hrq : row.question_id = qid
      · subst hrq; rw [hq] at h; simp at h
      · rw [if_neg hrq]
  · simp only [h, if_false, Bool.false_eq_true]
    exact lookupA_append_single s.answers row.question_id row.score qid

lemma lookupAnsM_of_some {m : List (Int × StudentSummary)} {uid : Int} {s : StudentSummary}
    (h : lookupA m uid = some s) (qid : Int) :
    lookupAnsM m uid qid = lookupA s.answers qid := by
  unfold lookupAnsM; rw [h]

lemma lookupAnsM_of_none {m : List (Int × StudentSummary)} {uid : Int}
    (h : lookupA m uid = none) (qid : Int) :
    lookupAnsM m uid qid = none := by
  unfold lookupAnsM; rw [h]

lemma freshSummary_answers (row : Row) : (freshSummary row).answers = [] := rfl

lemma lookupA_aggInsert (m : List (Int × StudentSummary)) (row : Row) (uid : Int) :
    lookupA (aggInsert m row) uid =
      if row.user_id = uid then
        some (applyRow ((lookupA m row.user_id).getD (freshSummary row)) row)
      else lookupA m uid := by
  induction m with
  | nil =>
    by_cases h : row.user_id = uid <;> simp [aggInsert, lookupA, h]
  | cons p rest ih =>
    obtain ⟨k, s⟩ := p
    by_cases hk : k = row.user_id
    · have h1 : aggInsert ((k, s) :: rest) row = (k, applyRow s row) :: rest := by
        simp [aggInsert, hk]
      have h2 : lookupA ((k, s) :: rest) row.user_id = some s := by
        simp [lookupA, hk]
      rw [h1, h2]
      by_cases hu : k = uid
      · have hru : row.user_id = uid := hk ▸ hu
        simp [lookupA, hu, hru]
      · have hru : ¬ row.user_id = uid := fun h => hu (hk.symm ▸ h)
        simp [lookupA, hu, hru]
    · have h1 : aggInsert ((k, s) :: rest) row = (k, s) :: aggInsert rest row := by
        simp [aggInsert, hk]
      have h2 : lookupA ((k, s) :: rest) row.user_id = lookupA rest row.user_id := by
        simp [lookupA, hk]
      rw [h1, h2]
      by_cases hu : k = uid
      · have hru : ¬ row.user_id = uid := fun h => hk (hu.trans h.symm)
        simp [lookupA, hu, hru]
      · simp only [lookupA, if_neg hu]
        exact ih

lemma lookupAnsM_aggInsert (m : List (Int × StudentSummary)) (row : Row) (uid qid : Int) :
    lookupAnsM (aggInsert m row) uid qid =
      oFirst (lookupAnsM m uid qid)
        (if row.user_id = uid ∧ row.question_id = qid then some row.score else none) := by
  by_cases hu : row.user_id = uid
  · have hlk : lookupA (aggInsert m row) uid =
        some (applyRow ((lookupA m row.user_id).getD (freshSummary row)) row) := by
      rw [lookupA_aggInsert, if_pos hu]
    rw [lookupAnsM_of_some hlk, lookupA_applyRow]
    cases hm : lookupA m row.user_id with
    | none =>
      have hm2 : lookupA m uid = none := hu ▸ hm
      rw [lookupAnsM_of_none hm2]
      simp only [Option.getD_none, freshSummary_answers, lookupA, oFirst_none]
      by_cases hq : row.question_id = qid
      · rw [if_pos hq, if_pos ⟨hu, hq⟩]
      · rw [if_neg hq, if_neg (fun hc => hq hc.2)]
    | some s =>
      have hm2 : lookupA m uid = some s := hu ▸ hm
      rw [lookupAnsM_of_some hm2]
      simp only [Option.getD_some]
      cases hsq : lookupA s.answers qid with
      | some v => rw [oFirst_some, oFirst_some]
      | none =>
        rw [oFirst_none, oFirst_none]
        by_cases hq : row.question_id = qid
        · rw [if_pos hq, if_pos ⟨hu, hq⟩]
        · rw [if_neg hq, if_neg (fun hc => hq hc.2)]
  · have hlk : lookupA (aggInsert m row) uid = lookupA m uid := by
      rw [lookupA_aggInsert, if_neg hu]
    have heq : lookupAnsM (aggInsert m row) uid qid = lookupAnsM m uid qid := by
      unfold lookupAnsM; rw [hlk]
    rw [heq, if_neg (fun hc => hu hc.1), oFirst_none_right]

lemma firstScore_cons (r : Row) (rs : List Row) (uid qid : Int) :
    firstScore (r :: rs) uid qid =
      oFirst (if r.user_id = uid ∧ r.question_id = qid then some r.score else none)
        (firstScore rs uid qid) := by
  by_cases hc : r.user_id = uid ∧ r.question_id = qid
  · simp [firstScore, hc, oFirst_some]
  · simp [firstScore, hc, oFirst_none]

lemma lookupAnsM_foldl (rows : List Row) :
    ∀ (m : List (Int × StudentSummary)) (uid qid : Int),
      lookupAnsM (rows.foldl aggInsert m) uid qid =
        oFirst (lookupAnsM m uid qid) (firstScore rows uid qid) := by
  induction rows with
  | nil =>
    intro m uid qid
    simp only [List.foldl_nil, firstScore]
    exact (oFirst_none_right _).symm
  | cons row rows ih =>
    intro m uid qid
    rw [List.foldl_cons, ih, lookupAnsM_aggInsert, firstScore_cons, oFirst_assoc]

/-- Claim C3: for every input row sequence (ordered newest-first per the read
contract) the aggregator records, for each (user, question) pair, the score of
the first row in input order mentioning that pair and skips all later rows for
the same pair; in particular, for the rows (user 1, question 1, score 5,
newer timestamp) then (user 1, question 1, score 2, older timestamp) in that
order, the summary for user 1 records answer 5 for question 1. -/
theorem C3_latest_wins :
    (∀ (rows : List Row) (uid qid : Int),
        lookupAnswer rows uid qid = firstScore rows uid qid) ∧
    lookupAnswer
        [⟨1, "n", "a", "g", "x", 1, 5, 200⟩, ⟨1, "n", "a", "g", "x", 1, 2, 100⟩] 1 1
      = some 5 := by
  constructor
  · intro rows uid qid
    unfold lookupAnswer aggMap
    rw [lookupAnsM_foldl]
    have h0 : lookupAnsM [] uid qid = none := rfl
    rw [h0, oFirst_none]
  · decide

/-- Claim C10: in the local-fallback path of fetch-all-responses, every
response whose user id matches no user in the local user collection is
emitted with the sentinel user id -1 and placeholder display fields, so two
responses referencing two distinct missing user ids are aggregated into a
single merged summary rather than one summary per missing user. -/
theorem C10_missing_user_sentinel :
    (∀ (users : List User) (r : Resp), findUser users r.user_id = none →
        joinOne users r =
          ⟨-1, "Unknown (Local)", "🙂", "", "", r.question_id, r.score, r.timestamp⟩) ∧
    fetchAllResponses (fun _ => none) (mkStore [] [⟨11, 100, 1, 2, 200⟩, ⟨12, 200, 1, 4, 100⟩])
      = .ok (.LOCAL, [⟨-1, "Unknown (Local)", "🙂", "", "", 1, 2, 200⟩,
                      ⟨-1, "Unknown (Local)", "🙂", "", "", 1, 4, 100⟩]) ∧
    studentSummaries [⟨-1, "Unknown (Local)", "🙂", "", "", 1, 2, 200⟩,
                      ⟨-1, "Unknown (Local)", "🙂", "", "", 1, 4, 100⟩]
      = [⟨-1, "Unknown (Local)", "🙂", "", "", [(1, 2)], 200⟩] := by
  refine ⟨?_, by decide, by decide⟩
  intro users r h
  unfold joinOne
  rw [h]

/-- Witness for claim C10: the sentinel join evaluated at a concrete response
whose user id is missing from an empty local user collection. -/
theorem C10_missing_user_sentinel_witness :
    joinOne [] ⟨11, 100, 1, 2, 200⟩ =
      ⟨-1, "Unknown (Local)", "🙂", "", "", 1, 2, 200⟩ :=
  C10_missing_user_sentinel.1 [] ⟨11, 100, 1, 2, 200⟩ rfl

/-! ### Totals: the CSV fold, the admin reduce, and the sum of answers -/

lemma foldl_add_eq (l : List Int) (a : Int) :
    l.foldl (fun x y => x + y) a = a + l.sum := by
  induction l generalizing a with
  | nil => simp
  | cons x l ih =>
    rw [List.foldl_cons, ih, List.sum_cons]
    ring

lemma csv_foldl_eq (ans : List (Int × Int)) (qs : List Int) (a : Int) :
    qs.foldl
        (fun acc q =>
          match lookupA ans q with
          | some v => acc + v
          | none => acc) a
      = a + (qs.filterMap (lookupA ans)).sum := by
  induction qs generalizing a with
  | nil => simp
  | cons q qs ih =>
    rw [List.foldl_cons]
    cases hq : lookupA ans q with
    | some v =>
      simp only [ih, List.filterMap_cons, hq, List.sum_cons]
      ring
    | none =>
      simp only [ih, List.filterMap_cons, hq]

lemma filterMap_const_none (l : List Int) :
    l.filterMap (fun _ => (none : Option Int)) = [] := by
  induction l with
  | nil => rfl
  | cons x l ih => simp [List.filterMap_cons, ih]

lemma lookupA_eq_none_iff {β : Type} (ans : List (Int × β)) (k : Int) :
    lookupA ans k = none ↔ k ∉ ans.map Prod.fst := by
  induction ans with
  | nil => simp [lookupA]
  | cons p rest ih =>
    obtain ⟨k1, v1⟩ := p
    by_cases h : k1 = k
    · subst h
      simp [lookupA]
    · have hrw : lookupA ((k1, v1) :: rest) k = lookupA rest k := by
        simp [lookupA, h]
      rw [hrw, ih, List.map_cons]
      constructor
      · intro hn hc
        rcases List.mem_cons.mp hc with he | hm
        · exact h he.symm
        · exact hn hm
      · intro hn hm
        exact hn (List.mem_cons.mpr (Or.inr hm))

lemma filterMap_ext_mem (l : List Int) (f g : Int → Option Int)
    (h : ∀ x ∈ l, f x = g x) : l.filterMap f = l.filterMap g := by
  induction l with
  | nil => rfl
  | cons x l ih =>
    rw [List.filterMap_cons, List.filterMap_cons, h x (by simp),
      ih (fun y hy => h y (by simp [hy]))]

lemma sum_filterMap_update (qs : List Int) (f g : Int → Option Int) (k v : Int)
    (hnd : qs.Nodup) (hk : k ∈ qs) (hf : f k = some v) (hg : g k = none)
    (hfg : ∀ x, x ≠ k → f x = g x) :
    (qs.filterMap f).sum = v + (qs.filterMap g).sum := by
  induction qs with
  | nil => cases hk
  | cons q qs ih =>
    have hqnd : qs.Nodup := (List.nodup_cons.mp hnd).2
    have hqmem : q ∉ qs := (List.nodup_cons.mp hnd).1
    by_cases hqk : q = k
    · subst hqk
      rw [List.filterMap_cons, List.filterMap_cons, hf, hg, List.sum_cons]
      have hrest : qs.filterMap f = qs.filterMap g :=
        filterMap_ext_mem qs f g (fun x hx => hfg x (fun hxk => hqmem (hxk ▸ hx)))
      rw [hrest]
    · have hk2 : k ∈ qs := by
        cases hk with
        | head => exact absurd rfl hqk
        | tail _ h => exact h
      rw [List.filterMap_cons, List.filterMap_cons, hfg q hqk]
      cases hgq : g q with
      | some w =>
        rw [List.sum_cons, List.sum_cons, ih hqnd hk2]
        ring
      | none => exact ih hqnd hk2

lemma sum_lookup_eq_sumValues (ans : List (Int × Int)) (qs : List Int)
    (hnd : qs.Nodup) (hsub : ∀ k ∈ ans.map Prod.fst, k ∈ qs)
    (hkeys : (ans.map Prod.fst).Nodup) :
    (qs.filterMap (lookupA ans)).sum = sumValues ans := by
  induction ans with
  | nil =>
    have h0 : qs.filterMap (lookupA ([] : List (Int × Int))) = qs.filterMap (fun _ => none) :=
      filterMap_ext_mem qs _ _ (fun x _ => rfl)
    rw [h0, filterMap_const_none]
    simp [sumValues]
  | cons p rest ih =>
    obtain ⟨k, v⟩ := p
    have hkc : (k :: rest.map Prod.fst).Nodup := by
      rw [List.map_cons] at hkeys
      exact hkeys
    have hknotin : k ∉ rest.map Prod.fst := (List.nodup_cons.mp hkc).1
    have hrestnd : (rest.map Prod.fst).Nodup := (List.nodup_cons.mp hkc).2
    have hstep : (qs.filterMap (lookupA ((k, v) :: rest))).sum
        = v + (qs.filterMap (lookupA rest)).sum := by
      apply sum_filterMap_update qs _ _ k v hnd
      · exact hsub k (by simp)
      · simp [lookupA]
      · exact (lookupA_eq_none_iff rest k).mpr hknotin
      · intro x hxk
        have hkx : ¬ k = x := fun hc => hxk hc.symm
        simp [lookupA, hkx]
    rw [hstep, ih (fun q hq => hsub q (by simp [hq])) hrestnd]
    simp [sumValues]

lemma csvTotalScore_eq_sumValues (qids : List Int) (s : StudentSummary)
    (hnd : qids.Nodup) (hsub : ∀ k ∈ s.answers.map Prod.fst, k ∈ qids)
    (hkeys : (s.answers.map Prod.fst).Nodup) :
    csvTotalScore qids s = sumValues s.answers := by
  unfold csvTotalScore
  rw [csv_foldl_eq, zero_add]
  have hperm : (sortIntAsc qids).Perm qids := List.perm_insertionSort _ qids
  rw [(hperm.filterMap (lookupA s.answers)).sum_eq]
  exact sum_lookup_eq_sumValues s.answers qids hnd hsub hkeys

lemma adminTotalScore_eq_sumValues (s : StudentSummary) :
    adminTotalScore s = sumValues s.answers := by
  unfold adminTotalScore sumValues
  rw [foldl_add_eq, zero_add]

/-! ### The aggregator never records the same question twice for a user -/

lemma applyRow_keys_nodup (s : StudentSummary) (row : Row)
    (h : (s.answers.map Prod.fst).Nodup) :
    ((applyRow s row).answers.map Prod.fst).Nodup := by
  rw [applyRow_answers_def]
  by_cases hq : (lookupA s.answers row.question_id).isSome
  · rw [if_pos hq]; exact h
  · rw [if_neg hq]
    have hnotin : row.question_id ∉ s.answers.map Prod.fst := by
      apply (lookupA_eq_none_iff s.answers row.question_id).mp
      cases hl : lookupA s.answers row.question_id with
      | none => rfl
      | some v => rw [hl] at hq; simp at hq
    simp [List.nodup_append, h, hnotin]

lemma aggFold_keys_nodup (rows : List Row) :
    ∀ (m : List (Int × StudentSummary)),
      (∀ uid s, lookupA m uid = some s → (s.answers.map Prod.fst).Nodup) →
      ∀ uid s, lookupA (rows.foldl aggInsert m) uid = some s →
        (s.answers.map Prod.fst).Nodup := by
  induction rows with
  | nil => intro m hm; simpa using hm
  | cons row rows ih =>
    intro m hm
    rw [List.foldl_cons]
    apply ih
    intro uid s hs
    rw [lookupA_aggInsert] at hs
    by_cases hu : row.user_id = uid
    · rw [if_pos hu] at hs
      cases hs2 : lookupA m row.user_id with
      | none =>
        rw [hs2] at hs
        have : s = applyRow (freshSummary row) row := by
          simpa [Option.getD] using hs.symm
        rw [this]
        exact applyRow_keys_nodup _ _ (by simp [freshSummary])
      | some s0 =>
        rw [hs2] at hs
        have : s = applyRow s0 row := by
          simpa [Option.getD] using hs.symm
        rw [this]
        exact applyRow_keys_nodup _ _ (hm _ _ hs2)
    · rw [if_neg hu] at hs
      exact hm _ _ hs

lemma aggMap_keys_nodup (rows : List Row) (uid : Int) (s : StudentSummary)
    (h : lookupA (aggMap rows) uid = some s) :
    (s.answers.map Prod.fst).Nodup := by
  apply aggFold_keys_nodup rows [] _ uid s h
  intro uid2 s2 hs2
  cases hs2

/-- Claim C9: for every student summary produced by the aggregator whose
recorded question ids lie in the (duplicate-free) question set, the admin
table total and the CSV total both equal the sum of all recorded per-question
scores, and the progress string is the recorded-question count over the
question-set size; in particular a user with recorded answers 5 for question
1 and 3 for question 2 against a three-question set totals 8 with progress
"2/3". -/
theorem C9_totals :
    (∀ (rows : List Row) (qids : List Int) (uid : Int) (s : StudentSummary),
      lookupA (aggMap rows) uid = some s →
      qids.Nodup →
      (∀ k ∈ s.answers.map Prod.fst, k ∈ qids) →
      adminTotalScore s = sumValues s.answers ∧
      csvTotalScore qids s = sumValues s.answers ∧
      progressOf qids s =
        toString ((s.answers.map Prod.fst).dedup.length) ++ "/" ++ toString qids.length) ∧
    studentSummaries [⟨1, "n", "a", "g", "x", 1, 5, 200⟩, ⟨1, "n", "a", "g", "x", 2, 3, 100⟩]
      = [⟨1, "n", "a", "g", "x", [(1, 5), (2, 3)], 200⟩] ∧
    csvTotalScore demoQuestionIds ⟨1, "n", "a", "g", "x", [(1, 5), (2, 3)], 200⟩ = 8 ∧
    adminTotalScore ⟨1, "n", "a", "g", "x", [(1, 5), (2, 3)], 200⟩ = 8 ∧
    progressOf demoQuestionIds ⟨1, "n", "a", "g", "x", [(1, 5), (2, 3)], 200⟩ = "2/3" := by
  refine ⟨?_, by decide, by decide, by decide, by decide⟩
  intro rows qids uid s hs hnd hsub
  have hkeys : (s.answers.map Prod.fst).Nodup := aggMap_keys_nodup rows uid s hs
  refine ⟨adminTotalScore_eq_sumValues s,
    csvTotalScore_eq_sumValues qids s hnd hsub hkeys, ?_⟩
  unfold progressOf
  rw [hkeys.dedup, List.length_map]

/-- Claim C6 counterexample: fetch-one-user's-responses does not attempt the
remote under a deadline of about 5 time units: two remotes that agree at
deadline 5000 give the operation different results, because it actually asks
at deadline 3000. -/
theorem C6_counterexample :
    (fun t => if t = 3000 then some ([] : List Resp) else none) 5000
        = (fun _ : Nat => (none : Option (List Resp))) 5000 ∧
    fetchUserResponses (fun t => if t = 3000 then some [] else none) 7 ⟨none, none⟩
      ≠ fetchUserResponses (fun _ => none) 7 ⟨none, none⟩ :=
  ⟨rfl, by decide⟩

/-- Claim C6 amended: fetch-all-responses attempts the remote under the
5000 ms (about 5 time units) deadline: its result depends on the remote only
through that deadline, it returns the remote rows tagged DB exactly when the
remote answers there, and it falls back to the local path otherwise; while
fetch-one-user's-responses behaves the same way under a 3000 ms (about 3 time
units) deadline, not 5. -/
theorem C6_amended_deadlines :
    (∀ (r1 r2 : Nat → Option (List Row)) (st : Store),
      r1 5000 = r2 5000 → fetchAllResponses r1 st = fetchAllResponses r2 st) ∧
    (∀ (r1 r2 : Nat → Option (List Resp)) (uid : Int) (st : Store),
      r1 3000 = r2 3000 → fetchUserResponses r1 uid st = fetchUserResponses r2 uid st) ∧
    (∀ (r : Nat → Option (List Row)) (st : Store) (d : List Row),
      r 5000 = some d → fetchAllResponses r st = .ok (.DB, d)) ∧
    (∀ (r : Nat → Option (List Row)) (st : Store),
      r 5000 = none → fetchAllResponses r st = fetchAllLocal st) ∧
    (∀ (r : Nat → Option (List Resp)) (uid : Int) (st : Store) (d : List Resp),
      r 3000 = some d → fetchUserResponses r uid st = .ok (.DB, d)) ∧
    (∀ (r : Nat → Option (List Resp)) (uid : Int) (st : Store),
      r 3000 = none → fetchUserResponses r uid st = fetchUserLocal uid st) := by
  refine ⟨?_, ?_, ?_, ?_, ?_, ?_⟩
  · intro r1 r2 st h
    unfold fetchAllResponses
    rw [h]
  · intro r1 r2 uid st h
    unfold fetchUserResponses
    rw [h]
  · intro r st d h
    unfold fetchAllResponses
    rw [h]
  · intro r st h
    unfold fetchAllResponses
    rw [h]
  · intro r uid st d h
    unfold fetchUserResponses
    rw [h]
  · intro r uid st h
    unfold fetchUserResponses
    rw [h]

/-- Witness for the amended claim C6: a remote that answers gives the
DB-tagged rows under the fetch-all deadline, and one that does not answer at
3000 sends fetch-one-user to the local path. -/
theorem C6_amended_deadlines_witness :
    fetchAllResponses (fun _ => some []) ⟨none, none⟩ = .ok (.DB, []) ∧
    fetchUserResponses (fun _ => none) 7 ⟨none, none⟩ = fetchUserLocal 7 ⟨none, none⟩ :=
  ⟨C6_amended_deadlines.2.2.1 (fun _ => some []) ⟨none, none⟩ [] rfl,
   C6_amended_deadlines.2.2.2.2.2 (fun _ => none) 7 ⟨none, none⟩ rfl⟩

/-- Claim C7 counterexample: a present but unparseable local user collection
makes the sync operation fail with a parse error instead of being treated as
an empty collection. -/
theorem C7_counterexample :
    (syncLocalToServer (fun _ => false) ⟨[], [], 1, 1⟩ ⟨some none, some (some [])⟩).result
      = .error .parseError := by
  decide

/-- Claim C7 amended: an absent local collection is treated as the empty
collection and never fails the operation (fetch-all fallback, fetch-user
fallback, and sync all succeed on a store with both keys absent), but a
present-and-unparseable collection makes each of those operations fail with
a parse error rather than being treated as empty. -/
theorem C7_amended_storage :
    ∀ (fails fails2 : Nat → Bool) (db : Srv) (uid : Int)
      (ucell : Cell User) (rcell : Cell Resp),
    fetchAllResponses (fun _ => none) ⟨none, none⟩ = .ok (.LOCAL, []) ∧
    fetchUserResponses (fun _ => none) uid ⟨none, none⟩ = .ok (.LOCAL, []) ∧
    syncLocalToServer fails db ⟨none, none⟩ = ⟨db, ⟨none, none⟩, 0, .ok ⟨0, 0⟩⟩ ∧
    fetchAllResponses (fun _ => none) ⟨some none, rcell⟩ = .error () ∧
    fetchUserResponses (fun _ => none) uid ⟨ucell, some none⟩ = .error () ∧
    (syncLocalToServer fails2 db ⟨some none, rcell⟩).result = .error .parseError := by
  intro fails fails2 db uid ucell rcell
  exact ⟨rfl, rfl, rfl, rfl, rfl, rfl⟩

/-- Claim C8 counterexample: two offline create-user calls that observe the
same clock reading (two calls inside one millisecond) store two users with
the same id, so the locally generated ids are not pairwise distinct. -/
theorem C8_counterexample :
    storedUserIds (runCreateUsersOffline
        [⟨100, "x", "y", "z", "w"⟩, ⟨100, "p", "q", "r", "s"⟩] ⟨some (some []), none⟩)
      = [100, 100] ∧
    ¬ (storedUserIds (runCreateUsersOffline
        [⟨100, "x", "y", "z", "w"⟩, ⟨100, "p", "q", "r", "s"⟩] ⟨some (some []), none⟩)).Nodup :=
  ⟨by decide, by decide⟩

/-- Claim C8 amended: a sequence of offline create-user calls appends exactly
the observed clock readings as ids, so whenever those readings are pairwise
distinct and distinct from every id already stored (as with a strictly
increasing millisecond clock and at most one creation per millisecond, the
intended one-creation-per-session pattern), the ids in the local user
collection are pairwise distinct. -/
theorem C8_amended_unique_ids :
    ∀ (calls : List CreateCall) (us0 : List User) (rcell : Cell Resp),
      storedUserIds (runCreateUsersOffline calls ⟨some (some us0), rcell⟩)
        = us0.map User.id ++ calls.map CreateCall.now ∧
      ((us0.map User.id ++ calls.map CreateCall.now).Nodup →
        (storedUserIds (runCreateUsersOffline calls ⟨some (some us0), rcell⟩)).Nodup) := by
  have main : ∀ (cs : List CreateCall) (us : List User) (rc : Cell Resp),
      storedUserIds (runCreateUsersOffline cs ⟨some (some us), rc⟩)
        = us.map User.id ++ cs.map CreateCall.now := by
    intro cs
    induction cs with
    | nil =>
      intro us rc
      simp [runCreateUsersOffline, storedUserIds, readCollection]
    | cons c cs ih =>
      intro us rc
      have hstep : runCreateUsersOffline (c :: cs) ⟨some (some us), rc⟩
          = runCreateUsersOffline cs
              ⟨some (some (us ++ [⟨c.now, c.name, c.avatar, c.grade, c.gender⟩])), rc⟩ := rfl
      rw [hstep, ih]
      simp [List.map_append]
  intro calls us0 rcell
  refine ⟨main calls us0 rcell, ?_⟩
  intro hnd
  rw [main calls us0 rcell]
  exact hnd

/-- Witness for the amended claim C8: two offline creations at the distinct
clock readings 5 and 6 leave a duplicate-free id collection. -/
theorem C8_amended_unique_ids_witness :
    (([] : List User).map User.id
        ++ [⟨5, "a", "b", "c", "d"⟩, ⟨6, "e", "f", "g", "h"⟩].map CreateCall.now).Nodup ∧
    (storedUserIds (runCreateUsersOffline
        [⟨5, "a", "b", "c", "d"⟩, ⟨6, "e", "f", "g", "h"⟩] ⟨some (some []), none⟩)).Nodup :=
  ⟨by decide,
   (C8_amended_unique_ids [⟨5, "a", "b", "c", "d"⟩, ⟨6, "e", "f", "g", "h"⟩] [] none).2
     (by decide)⟩

/-- Claim C4: whenever both local collections read as empty, the sync
reconciler returns the zero result without issuing any network call, and
running it again on its own output returns the same zero result with no
network call on the second run either. -/
theorem C4_empty_sync_idempotent :
    ∀ (fails fails2 : Nat → Bool) (db : Srv) (st : Store),
      readCollection st.sel_users = .ok ([] : List User) →
      readCollection st.sel_responses = .ok ([] : List Resp) →
      syncLocalToServer fails db st = ⟨db, st, 0, .ok ⟨0, 0⟩⟩ ∧
      syncLocalToServer fails2 (syncLocalToServer fails db st).db
          (syncLocalToServer fails db st).store
        = ⟨db, st, 0, .ok ⟨0, 0⟩⟩ := by
  intro fails fails2 db st hu hr
  have key : ∀ (f : Nat → Bool), syncLocalToServer f db st = ⟨db, st, 0, .ok ⟨0, 0⟩⟩ := by
    intro f
    simp only [syncLocalToServer, hu, hr]
    simp
  refine ⟨key fails, ?_⟩
  rw [key fails]
  exact key fails2

/-- Witness for claim C4: the idempotence theorem applied to the store with
both keys absent. -/
theorem C4_empty_sync_idempotent_witness :
    readCollection (Store.mk none none).sel_users = .ok ([] : List User) ∧
    syncLocalToServer (fun _ => false) ⟨[], [], 1, 1⟩ ⟨none, none⟩
      = ⟨⟨[], [], 1, 1⟩, ⟨none, none⟩, 0, .ok ⟨0, 0⟩⟩ :=
  ⟨rfl,
   (C4_empty_sync_idempotent (fun _ => false) (fun _ => false) ⟨[], [], 1, 1⟩ ⟨none, none⟩
     rfl rfl).1⟩

/-! ### The two insert phases of POST /api/sync -/

lemma anyFail_eq_false (fails : Nat → Bool) (n : Nat) :
    ∀ pos, anyFail fails pos n = false ↔ ∀ i, i < n → fails (pos + i) = false := by
  induction n with
  | zero =>
    intro pos
    simp [anyFail]
  | succ n ih =>
    intro pos
    rw [anyFail, Bool.or_eq_false_iff]
    constructor
    · rintro ⟨h0, h1⟩ i hi
      cases i with
      | zero => simpa using h0
      | succ j =>
        have hj := (ih (pos + 1)).mp h1 j (by omega)
        have harith : pos + 1 + j = pos + (j + 1) := by omega
        rw [harith] at hj
        exact hj
    · intro h
      constructor
      · simpa using h 0 (by omega)
      · apply (ih (pos + 1)).mpr
        intro j hj
        have hx := h (j + 1) (by omega)
        have harith : pos + (j + 1) = pos + 1 + j := by omega
        rw [harith] at hx
        exact hx

lemma anyFail_true_of (fails : Nat → Bool) (pos n i : Nat)
    (hi : i < n) (h : fails (pos + i) = true) :
    anyFail fails pos n = true := by
  cases hb : anyFail fails pos n with
  | true => rfl
  | false =>
    have := (anyFail_eq_false fails n pos).mp hb i hi
    rw [this] at h
    cases h

lemma phase1_pos (fails : Nat → Bool) (us : List User) :
    ∀ s : P1, (phase1 fails us s).pos = s.pos + us.length := by
  induction us with
  | nil => intro s; simp [phase1]
  | cons u us ih =>
    intro s
    cases h : fails s.pos with
    | true =>
      simp only [phase1, h, if_true]
      rw [ih]
      simp
      omega
    | false =>
      simp only [phase1, h, Bool.false_eq_true, if_false]
      rw [ih]
      simp
      omega

lemma phase1_failed (fails : Nat → Bool) (us : List User) :
    ∀ s : P1, (phase1 fails us s).failed = (s.failed || anyFail fails s.pos us.length) := by
  induction us with
  | nil => intro s; simp [phase1, anyFail]
  | cons u us ih =>
    intro s
    simp only [List.length_cons]
    rw [show anyFail fails s.pos (us.length + 1)
        = (fails s.pos || anyFail fails (s.pos + 1) us.length) from rfl]
    cases h : fails s.pos with
    | true =>
      simp only [phase1, h, if_true]
      rw [ih]
      simp
    | false =>
      simp only [phase1, h, Bool.false_eq_true, if_false]
      rw [ih]
      simp

lemma phase1_clean (fails : Nat → Bool) (us : List User) :
    ∀ s : P1, s.failed = false →
      (∀ i, i < us.length → fails (s.pos + i) = false) →
      phase1 fails us s =
        ⟨⟨s.db.users ++ assignIds s.db.nextUserId us, s.db.responses,
          s.db.nextUserId + us.length, s.db.nextRespId⟩,
         buildMap s.idMap s.db.nextUserId us,
         s.synced + us.length, false, s.pos + us.length⟩ := by
  induction us with
  | nil =>
    intro s hf _
    obtain ⟨⟨dbu, dbr, n1, n2⟩, m1, sy, fl, po⟩ := s
    simp only at hf
    subst hf
    simp [phase1, assignIds, buildMap]
  | cons u us ih =>
    intro s hf hnofail
    have h0 : fails s.pos = false := by simpa using hnofail 0 (by simp)
    have hstep : phase1 fails (u :: us) s = phase1 fails us
        ⟨(insUser s.db u).1, mapSet s.idMap u.id (insUser s.db u).2,
         s.synced + 1, s.failed, s.pos + 1⟩ := by
      simp only [phase1, h0, Bool.false_eq_true, if_false]
    rw [hstep]
    rw [ih _ (by simpa using hf) (by
      intro i hi
      have hx := hnofail (i + 1) (by simpa using Nat.succ_lt_succ hi)
      have harith : s.pos + (i + 1) = s.pos + 1 + i := by omega
      rw [harith] at hx
      exact hx)]
    simp only [insUser, assignIds, buildMap]
    simp only [P1.mk.injEq, Srv.mk.injEq, List.length_cons]
    refine ⟨⟨?_, ?_, ?_, ?_⟩, ?_, ?_, ?_, ?_⟩ <;>
      first
        | trivial
        | (rw [List.append_assoc]; rfl)
        | (push_cast; ring)

lemma phase2_pos (fails : Nat → Bool) (m : List (Int × Int)) (rs : List Resp) :
    ∀ s : P2, (phase2 fails m rs s).pos = s.pos + rs.length := by
  induction rs with
  | nil => intro s; simp [phase2]
  | cons r rs ih =>
    intro s
    cases h : fails s.pos with
    | true =>
      simp only [phase2, h, if_true]
      rw [ih]
      simp
      omega
    | false =>
      simp only [phase2, h, Bool.false_eq_true, if_false]
      rw [ih]
      simp
      omega

lemma phase2_failed (fails : Nat → Bool) (m : List (Int × Int)) (rs : List Resp) :
    ∀ s : P2, (phase2 fails m rs s).failed = (s.failed || anyFail fails s.pos rs.length) := by
  induction rs with
  | nil => intro s; simp [phase2, anyFail]
  | cons r rs ih =>
    intro s
    simp only [List.length_cons]
    rw [show anyFail fails s.pos (rs.length + 1)
        = (fails s.pos || anyFail fails (s.pos + 1) rs.length) from rfl]
    cases h : fails s.pos with
    | true =>
      simp only [phase2, h, if_true]
      rw [ih]
      simp
    | false =>
      simp only [phase2, h, Bool.false_eq_true, if_false]
      rw [ih]
      simp

lemma phase2_clean (fails : Nat → Bool) (m : List (Int × Int)) (rs : List Resp) :
    ∀ s : P2, s.failed = false →
      (∀ i, i < rs.length → fails (s.pos + i) = false) →
      phase2 fails m rs s =
        ⟨⟨s.db.users, s.db.responses ++ uploadedResponses m s.db.nextRespId rs,
          s.db.nextUserId, s.db.nextRespId + rs.length⟩,
         s.synced + rs.length, false, s.pos + rs.length⟩ := by
  induction rs with
  | nil =>
    intro s hf _
    obtain ⟨⟨dbu, dbr, n1, n2⟩, sy, fl, po⟩ := s
    simp only at hf
    subst hf
    simp [phase2, uploadedResponses]
  | cons r rs ih =>
    intro s hf hnofail
    have h0 : fails s.pos = false := by simpa using hnofail 0 (by simp)
    have hstep : phase2 fails m (r :: rs) s = phase2 fails m rs
        ⟨insResp m s.db r, s.synced + 1, s.failed, s.pos + 1⟩ := by
      simp only [phase2, h0, Bool.false_eq_true, if_false]
    rw [hstep]
    rw [ih _ (by simpa using hf) (by
      intro i hi
      have hx := hnofail (i + 1) (by simpa using Nat.succ_lt_succ hi)
      have harith : s.pos + (i + 1) = s.pos + 1 + i := by omega
      rw [harith] at hx
      exact hx)]
    simp only [insResp, uploadedResponses]
    simp only [P2.mk.injEq, Srv.mk.injEq, List.length_cons]
    refine ⟨⟨?_, ?_, ?_, ?_⟩, ?_, ?_, ?_⟩ <;>
      first
        | trivial
        | (rw [List.append_assoc]; rfl)
        | (push_cast; ring)

lemma assignIds_length (sid : Int) (us : List User) :
    (assignIds sid us).length = us.length := by
  induction us generalizing sid with
  | nil => rfl
  | cons u us ih => simp [assignIds, ih]

lemma uploadedResponses_length (m : List (Int × Int)) (sid : Int) (rs : List Resp) :
    (uploadedResponses m sid rs).length = rs.length := by
  induction rs generalizing sid with
  | nil => rfl
  | cons r rs ih => simp [uploadedResponses, ih]

lemma uploadedResponses_map_ts (m : List (Int × Int)) (sid : Int) (rs : List Resp) :
    (uploadedResponses m sid rs).map (fun x => x.timestamp)
      = rs.map (fun x => x.timestamp) := by
  induction rs generalizing sid with
  | nil => rfl
  | cons r rs ih => simp [uploadedResponses, ih]

lemma uploadedResponses_map_uid (m : List (Int × Int)) (sid : Int) (rs : List Resp) :
    (uploadedResponses m sid rs).map (fun x => x.user_id)
      = rs.map (fun x => codeResolve m x.user_id) := by
  induction rs generalizing sid with
  | nil => rfl
  | cons r rs ih => simp [uploadedResponses, ih]

lemma mapSet_mem {β : Type} (m : List (Int × β)) (k : Int) (v : β) (p : Int × β)
    (hp : p ∈ mapSet m k v) : p ∈ m ∨ p = (k, v) := by
  induction m with
  | nil =>
    simp [mapSet] at hp
    exact Or.inr hp
  | cons q rest ih =>
    obtain ⟨k1, v1⟩ := q
    by_cases h : k1 = k
    · rw [mapSet, if_pos h] at hp
      rcases List.mem_cons.mp hp with he | hm
      · exact Or.inr he
      · exact Or.inl (List.mem_cons.mpr (Or.inr hm))
    · rw [mapSet, if_neg h] at hp
      rcases List.mem_cons.mp hp with he | hm
      · exact Or.inl (List.mem_cons.mpr (Or.inl he))
      · rcases ih hm with hin | heq
        · exact Or.inl (List.mem_cons.mpr (Or.inr hin))
        · exact Or.inr heq

lemma buildMap_pos (us : List User) :
    ∀ (m : List (Int × Int)) (sid : Int),
      (∀ p ∈ m, 0 < p.2) → 0 < sid →
      ∀ p ∈ buildMap m sid us, 0 < p.2 := by
  induction us with
  | nil =>
    intro m sid hm _ p hp
    exact hm p hp
  | cons u us ih =>
    intro m sid hm hsid p hp
    apply ih (mapSet m u.id sid) (sid + 1) _ (by omega) p hp
    intro q hq
    rcases mapSet_mem m u.id sid q hq with hin | heq
    · exact hm q hin
    · rw [heq]
      exact hsid

lemma lookupA_mem {β : Type} (m : List (Int × β)) (k : Int) (v : β)
    (h : lookupA m k = some v) : (k, v) ∈ m := by
  induction m with
  | nil => cases h
  | cons q rest ih =>
    obtain ⟨k1, v1⟩ := q
    by_cases hk : k1 = k
    · rw [lookupA, if_pos hk] at h
      cases h
      rw [hk]
      exact List.mem_cons.mpr (Or.inl rfl)
    · rw [lookupA, if_neg hk] at h
      exact List.mem_cons.mpr (Or.inr (ih h))

lemma codeResolve_eq_resolve (m : List (Int × Int)) (uid : Int)
    (hm : ∀ p ∈ m, 0 < p.2) : codeResolve m uid = resolveUserId m uid := by
  unfold codeResolve resolveUserId
  cases hl : lookupA m uid with
  | none => rfl
  | some v =>
    have hv : 0 < v := hm (uid, v) (lookupA_mem m uid v hl)
    have hne : ¬ v = 0 := by omega
    show (if v = 0 then uid else v) = v
    rw [if_neg hne]

/-! ### Characterizing the server sync handler -/

lemma serverSync_clean (fails : Nat → Bool) (db : Srv) (us : List User) (rs : List Resp)
    (hno : ∀ i, 1 ≤ i → i ≤ us.length + rs.length → fails i = false) :
    serverSync fails db us rs =
      ⟨⟨db.users ++ assignIds db.nextUserId us,
        db.responses ++ uploadedResponses (buildMap [] db.nextUserId us) db.nextRespId rs,
        db.nextUserId + us.length, db.nextRespId + rs.length⟩,
       .ok ⟨us.length, rs.length⟩⟩ := by
  have hp1 : phase1 fails us ⟨db, [], 0, false, 1⟩ =
      ⟨⟨db.users ++ assignIds db.nextUserId us, db.responses,
        db.nextUserId + us.length, db.nextRespId⟩,
       buildMap [] db.nextUserId us, 0 + us.length, false, 1 + us.length⟩ := by
    apply phase1_clean
    · rfl
    · intro i hi
      exact hno (1 + i) (by omega) (by omega)
  have hp2 : phase2 fails (buildMap [] db.nextUserId us) rs
      ⟨⟨db.users ++ assignIds db.nextUserId us, db.responses,
        db.nextUserId + us.length, db.nextRespId⟩, 0, false, 1 + us.length⟩ =
      ⟨⟨db.users ++ assignIds db.nextUserId us,
        db.responses ++ uploadedResponses (buildMap [] db.nextUserId us) db.nextRespId rs,
        db.nextUserId + us.length, db.nextRespId + rs.length⟩,
       0 + rs.length, false, 1 + us.length + rs.length⟩ := by
    apply phase2_clean
    · rfl
    · intro i hi
      exact hno (1 + us.length + i) (by omega) (by omega)
  unfold serverSync
  rw [hp1]
  simp only
  rw [hp2]
  simp

lemma serverSync_err (fails : Nat → Bool) (db : Srv) (us : List User) (rs : List Resp)
    (K : Nat) (h1 : 1 ≤ K) (h2 : K ≤ us.length + rs.length) (hK : fails K = true) :
    (serverSync fails db us rs).result = .error () := by
  unfold serverSync
  cases hf1 : (phase1 fails us ⟨db, [], 0, false, 1⟩).failed with
  | true => simp [hf1]
  | false =>
    have hany1 : anyFail fails 1 us.length = false := by
      have := phase1_failed fails us ⟨db, [], 0, false, 1⟩
      rw [hf1] at this
      simpa using this.symm
    have husers : ∀ i, i < us.length → fails (1 + i) = false :=
      (anyFail_eq_false fails us.length 1).mp hany1
    have hKbig : us.length < K := by
      by_contra hle
      have hi : K - 1 < us.length := by omega
      have := husers (K - 1) hi
      have harith : 1 + (K - 1) = K := by omega
      rw [harith] at this
      rw [this] at hK
      cases hK
    have hpos1 : (phase1 fails us ⟨db, [], 0, false, 1⟩).pos = 1 + us.length := by
      rw [phase1_pos]
    have hf2 : (phase2 fails (phase1 fails us ⟨db, [], 0, false, 1⟩).idMap rs
        ⟨(phase1 fails us ⟨db, [], 0, false, 1⟩).db, 0, false,
          (phase1 fails us ⟨db, [], 0, false, 1⟩).pos⟩).failed = true := by
      rw [phase2_failed]
      simp only [hpos1, Bool.false_or]
      exact anyFail_true_of fails (1 + us.length) rs.length (K - 1 - us.length)
        (by omega) (by rw [show 1 + us.length + (K - 1 - us.length) = K from by omega]; exact hK)
    simp [hf1, hf2]

lemma serverSync_ok_inv (fails : Nat → Bool) (db : Srv) (us : List User) (rs : List Resp)
    (r : SyncResult) (h : (serverSync fails db us rs).result = .ok r) :
    ∀ i, 1 ≤ i → i ≤ us.length + rs.length → fails i = false := by
  intro i hi1 hi2
  cases hfi : fails i with
  | false => rfl
  | true =>
    have := serverSync_err fails db us rs i hi1 hi2 hfi
    rw [this] at h
    cases h

/-! ### Characterizing the client sync run -/

lemma sync_run_error (fails : Nat → Bool) (db : Srv) (us : List User) (rs : List Resp)
    (hne : ¬(us.length = 0 ∧ rs.length = 0))
    (he : (serverSync fails db us rs).result = .error ()) :
    syncLocalToServer fails db (mkStore us rs) =
      ⟨(serverSync fails db us rs).db, mkStore us rs, 1, .error .syncFailed⟩ := by
  unfold syncLocalToServer
  simp only [mkStore, readCollection]
  rw [if_neg hne]
  simp only [he]

lemma sync_run_ok (fails : Nat → Bool) (db : Srv) (us : List User) (rs : List Resp)
    (r2 : SyncResult) (hne : ¬(us.length = 0 ∧ rs.length = 0))
    (hok : (serverSync fails db us rs).result = .ok r2) :
    syncLocalToServer fails db (mkStore us rs) =
      ⟨(serverSync fails db us rs).db, ⟨none, none⟩, 1, .ok r2⟩ := by
  unfold syncLocalToServer
  simp only [mkStore, readCollection]
  rw [if_neg hne]
  simp only [hok]

lemma sync_ok_char (fails : Nat → Bool) (db : Srv) (us : List User) (rs : List Resp)
    (r : SyncResult) (h : (syncLocalToServer fails db (mkStore us rs)).result = .ok r) :
    r = ⟨us.length, rs.length⟩ ∧
    (syncLocalToServer fails db (mkStore us rs)).db =
      ⟨db.users ++ assignIds db.nextUserId us,
       db.responses ++ uploadedResponses (buildMap [] db.nextUserId us) db.nextRespId rs,
       db.nextUserId + us.length, db.nextRespId + rs.length⟩ ∧
    readCollection (syncLocalToServer fails db (mkStore us rs)).store.sel_users
      = .ok ([] : List User) ∧
    readCollection (syncLocalToServer fails db (mkStore us rs)).store.sel_responses
      = .ok ([] : List Resp) := by
  by_cases hempty : us.length = 0 ∧ rs.length = 0
  · obtain ⟨hu0, hr0⟩ := hempty
    have hus : us = [] := List.length_eq_zero.mp hu0
    have hrs : rs = [] := List.length_eq_zero.mp hr0
    subst hus
    subst hrs
    have hrun : syncLocalToServer fails db (mkStore [] []) =
        ⟨db, mkStore [] [], 0, .ok ⟨0, 0⟩⟩ := rfl
    rw [hrun] at h ⊢
    simp only at h
    obtain ⟨dbu, dbr, n1, n2⟩ := db
    refine ⟨?_, ?_, rfl, rfl⟩
    · cases h
      rfl
    · simp [assignIds, uploadedResponses]
  · cases hres : (serverSync fails db us rs).result with
    | error e =>
      have hrun := sync_run_error fails db us rs hempty (by
        cases e
        exact hres)
      rw [hrun] at h
      cases h
    | ok r2 =>
      have hno := serverSync_ok_inv fails db us rs r2 hres
      have hclean := serverSync_clean fails db us rs hno
      have hr2 : r2 = ⟨us.length, rs.length⟩ := by
        have hx := hres
        rw [hclean] at hx
        simp only at hx
        cases hx
        rfl
      have hrun := sync_run_ok fails db us rs r2 hempty hres
      rw [hrun] at h ⊢
      simp only at h
      subst hr2
      cases h
      refine ⟨rfl, ?_, rfl, rfl⟩
      show (serverSync fails db us rs).db = _
      rw [hclean]

/-- Claim C1: a sync run over a local store holding N pending users and M
pending responses that completes without error creates exactly N remote user
records and M remote response records, returns counts N and M, and leaves
both local collections reading as empty afterwards. -/
theorem C1_sync_roundtrip :
    ∀ (fails : Nat → Bool) (db : Srv) (us : List User) (rs : List Resp) (r : SyncResult),
      (syncLocalToServer fails db (mkStore us rs)).result = .ok r →
      r = ⟨us.length, rs.length⟩ ∧
      (syncLocalToServer fails db (mkStore us rs)).db.users.length
        = db.users.length + us.length ∧
      (syncLocalToServer fails db (mkStore us rs)).db.responses.length
        = db.responses.length + rs.length ∧
      readCollection (syncLocalToServer fails db (mkStore us rs)).store.sel_users
        = .ok ([] : List User) ∧
      readCollection (syncLocalToServer fails db (mkStore us rs)).store.sel_responses
        = .ok ([] : List Resp) := by
  intro fails db us rs r h
  obtain ⟨hr, hdb, hsu, hsr⟩ := sync_ok_char fails db us rs r h
  refine ⟨hr, ?_, ?_, hsu, hsr⟩
  · rw [hdb]
    simp [assignIds_length]
  · rw [hdb]
    simp [uploadedResponses_length]

/-- Witness for claim C1: one pending user and one pending response synced
into an empty database without failures. -/
theorem C1_sync_roundtrip_witness :
    (syncLocalToServer (fun _ => false) ⟨[], [], 1, 1⟩
        (mkStore [⟨100, "n", "a", "g", "x"⟩] [⟨7, 100, 2, 4, 55⟩])).result
      = .ok ⟨1, 1⟩ ∧
    (syncLocalToServer (fun _ => false) ⟨[], [], 1, 1⟩
        (mkStore [⟨100, "n", "a", "g", "x"⟩] [⟨7, 100, 2, 4, 55⟩])).db.users.length
      = ([] : List User).length + [(⟨100, "n", "a", "g", "x"⟩ : User)].length :=
  ⟨by decide,
   (C1_sync_roundtrip (fun _ => false) ⟨[], [], 1, 1⟩
     [⟨100, "n", "a", "g", "x"⟩] [⟨7, 100, 2, 4, 55⟩] ⟨1, 1⟩ (by decide)).2.1⟩

/-- Claim C2: if any single create at position K of the combined
user-then-response insert sequence fails, the sync run surfaces exactly one
sync-failed error and the local store still holds all original pending users
and responses unchanged. -/
theorem C2_failed_create_preserves_local :
    ∀ (fails : Nat → Bool) (db : Srv) (us : List User) (rs : List Resp) (K : Nat),
      1 ≤ K → K ≤ us.length + rs.length → fails K = true →
      (syncLocalToServer fails db (mkStore us rs)).result = .error .syncFailed ∧
      (syncLocalToServer fails db (mkStore us rs)).store = mkStore us rs := by
  intro fails db us rs K h1 h2 hK
  have hne : ¬(us.length = 0 ∧ rs.length = 0) := by
    rintro ⟨hu0, hr0⟩
    rw [hu0, hr0] at h2
    omega
  cases hres : (serverSync fails db us rs).result with
  | ok r2 =>
    have := serverSync_ok_inv fails db us rs r2 hres K h1 h2
    rw [this] at hK
    cases hK
  | error e =>
    have hrun := sync_run_error fails db us rs hne (by cases e; exact hres)
    rw [hrun]
    exact ⟨rfl, rfl⟩

/-- Witness for claim C2: the very first insert of a one-user one-response
sync fails; the client sees one sync-failed error and keeps its local data. -/
theorem C2_failed_create_preserves_local_witness :
    1 ≤ 1 ∧
    1 ≤ [(⟨100, "n", "a", "g", "x"⟩ : User)].length + [(⟨7, 100, 2, 4, 55⟩ : Resp)].length ∧
    (fun k => k == 1) 1 = true ∧
    (syncLocalToServer (fun k => k == 1) ⟨[], [], 1, 1⟩
        (mkStore [⟨100, "n", "a", "g", "x"⟩] [⟨7, 100, 2, 4, 55⟩])).result
      = .error .syncFailed :=
  ⟨by decide, by decide, rfl,
   (C2_failed_create_preserves_local (fun k => k == 1) ⟨[], [], 1, 1⟩
     [⟨100, "n", "a", "g", "x"⟩] [⟨7, 100, 2, 4, 55⟩] 1
     (by decide) (by decide) rfl).1⟩

/-- Claim C5: every response uploaded by a successful sync run is created
with its original timestamp preserved, and with its owning user id resolved
through the sync identifier map built from the uploaded users, falling back
to the original user id when the map has no entry (the database assigns
positive rowids, so the falsy-zero fallback in the lookup never fires). -/
theorem C5_sync_remap_preserves_timestamps :
    ∀ (fails : Nat → Bool) (db : Srv) (us : List User) (rs : List Resp) (r : SyncResult),
      0 < db.nextUserId →
      (syncLocalToServer fails db (mkStore us rs)).result = .ok r →
      (syncLocalToServer fails db (mkStore us rs)).db.responses.map (fun x => x.timestamp)
        = db.responses.map (fun x => x.timestamp) ++ rs.map (fun x => x.timestamp) ∧
      (syncLocalToServer fails db (mkStore us rs)).db.responses.map (fun x => x.user_id)
        = db.responses.map (fun x => x.user_id)
          ++ rs.map (fun x => resolveUserId (buildMap [] db.nextUserId us) x.user_id) := by
  intro fails db us rs r hpos h
  obtain ⟨hr, hdb, _, _⟩ := sync_ok_char fails db us rs r h
  rw [hdb]
  constructor
  · simp [uploadedResponses_map_ts]
  · have hmpos : ∀ p ∈ buildMap ([] : List (Int × Int)) db.nextUserId us, 0 < p.2 := by
      apply buildMap_pos
      · intro p hp
        cases hp
      · exact hpos
    have hfun : (fun x : Resp => codeResolve (buildMap [] db.nextUserId us) x.user_id)
        = fun x : Resp => resolveUserId (buildMap [] db.nextUserId us) x.user_id :=
      funext (fun x => codeResolve_eq_resolve _ x.user_id hmpos)
    simp only [List.map_append, uploadedResponses_map_uid, hfun]

/-- Witness for claim C5: a fresh database (next rowid 1), one pending user
with local id 100 and one pending response owned by 100; after sync the
stored response's user id is the remapped rowid. -/
theorem C5_sync_remap_preserves_timestamps_witness :
    (0 : Int) < 1 ∧
    (syncLocalToServer (fun _ => false) ⟨[], [], 1, 1⟩
        (mkStore [⟨100, "n", "a", "g", "x"⟩] [⟨7, 100, 2, 4, 55⟩])).result = .ok ⟨1, 1⟩ ∧
    (syncLocalToServer (fun _ => false) ⟨[], [], 1, 1⟩
        (mkStore [⟨100, "n", "a", "g", "x"⟩] [⟨7, 100, 2, 4, 55⟩])).db.responses.map
          (fun x => x.user_id)
      = ([] : List Resp).map (fun x => x.user_id)
        ++ [(⟨7, 100, 2, 4, 55⟩ : Resp)].map
            (fun x => resolveUserId (buildMap [] 1 [⟨100, "n", "a", "g", "x"⟩]) x.user_id) :=
  ⟨by decide, by decide,
   (C5_sync_remap_preserves_timestamps (fun _ => false) ⟨[], [], 1, 1⟩
     [⟨100, "n", "a", "g", "x"⟩] [⟨7, 100, 2, 4, 55⟩] ⟨1, 1⟩
     (by decide) (by decide)).2⟩

/-- Witness for claim C9: the totals theorem applied to the aggregation of two
concrete rows of one user against the three-question set. -/
theorem C9_totals_witness :
    adminTotalScore ⟨1, "n", "a", "g", "x", [(1, 5), (2, 3)], 200⟩
        = sumValues [(1, 5), (2, 3)] ∧
    csvTotalScore demoQuestionIds ⟨1, "n", "a", "g", "x", [(1, 5), (2, 3)], 200⟩
        = sumValues [(1, 5), (2, 3)] ∧
    progressOf demoQuestionIds ⟨1, "n", "a", "g", "x", [(1, 5), (2, 3)], 200⟩
        = toString (([(1, 5), (2, 3)].map (Prod.fst (β := Int))).dedup.length) ++ "/"
          ++ toString demoQuestionIds.length :=
  C9_totals.1
    [⟨1, "n", "a", "g", "x", 1, 5, 200⟩, ⟨1, "n", "a", "g", "x", 2, 3, 100⟩]
    demoQuestionIds 1 ⟨1, "n", "a", "g", "x", [(1, 5), (2, 3)], 200⟩
    (by decide) (by decide) (by decide)

end SEL
